import Mathlib

/-!
Verification of the reference-extraction, scenario-classification and
response-formatting core of the TestEmailQfDatBot repository.

The JavaScript sources are embedded shallowly:

* strings are modelled as `List Char` (JS strings over the ASCII inputs the
  parser handles); `String` is used at the interfaces;
* the JavaScript regular expressions used by `email-parser.js` are compiled
  by hand, regex by regex, into a small backtracking matcher (`RElem`,
  `RPat`) whose priority order reproduces the ECMAScript semantics: leftmost
  match wins, alternatives are tried left to right, greedy quantifiers try
  the longest repetition first and backtrack; every quantifier appearing in
  the source applies to a single character class, and every alternation is
  an alternation of plain literals, so these two shapes are the only ones
  the matcher needs;
* `String.prototype.replace` with a non-global regex replaces the first
  match only, `matchAll` with the `g` flag enumerates successive
  non-overlapping matches, and `String.prototype.replace` with a literal
  first argument replaces the first occurrence of the literal: each of
  these is modelled by a dedicated function;
* exceptions are modelled with `Except`; JS `undefined` for optional string
  inputs is modelled with `Option String` (interpolating `undefined` into a
  template yields the string "undefined", as in JS).
-/

/-! ### Character classes (ECMAScript, restricted to the ASCII inputs) -/

/-- JS `\s` (the whitespace characters that occur in email text). -/
def jsSpace (c : Char) : Bool :=
  c = ' ' || c = '\t' || c = '\n' || c = '\r' || c = '\x0b' || c = '\x0c' || c = ' '

/-- JS `\w`: ASCII alphanumeric or underscore. -/
def isWordChar (c : Char) : Bool :=
  c.isAlphanum || c = '_'

/-- JS `\d`. -/
def isDigitCh (c : Char) : Bool :=
  c.isDigit

/-- Case-insensitive character comparison (the `i` flag; ASCII). -/
def ciEq (a b : Char) : Bool :=
  a.toLower = b.toLower

/-- `needle.isPrefixOf hay` up to ASCII case. -/
def ciPrefixL : List Char → List Char → Bool
  | [], _ => true
  | _ :: _, [] => false
  | a :: as, b :: bs => ciEq a b && ciPrefixL as bs

/-- `hay.includes needle` (case-sensitive substring test, as JS `includes`). -/
def substrOf (needle : List Char) : List Char → Bool
  | [] => needle.isPrefixOf []
  | c :: cs => needle.isPrefixOf (c :: cs) || substrOf needle cs

/-- Number of positions of `hay` at which `needle` starts. -/
def countOcc (needle : List Char) : List Char → Nat
  | [] => if needle.isPrefixOf ([] : List Char) then 1 else 0
  | c :: cs =>
    (if needle.isPrefixOf (c :: cs) then 1 else 0) + countOcc needle cs

/-- JS `String.prototype.trim` (whitespace from both ends). -/
def trimJS (s : List Char) : List Char :=
  ((s.dropWhile jsSpace).reverse.dropWhile jsSpace).reverse

/-- Whether a character occurs in a list. -/
def hasChar (a : Char) : List Char → Bool
  | [] => false
  | c :: cs => a == c || hasChar a cs

/-! ### A backtracking matcher for the regexes of the source

Every regex in `email-parser.js` is a sequence of the following elements;
the possibility lists are ordered by ECMAScript backtracking priority. -/

/-- One element of a compiled regex. -/
inductive RElem where
  /-- a single character matching a class -/
  | cls (p : Char → Bool)
  /-- greedy repetition of a character class, at least `lo` times, at most
  `hi` (`none` = unbounded): `*` is `rep p 0 none`, `+` is `rep p 1 none`,
  `?` is `rep p 0 (some 1)`, `{m,n}` is `rep p m (some n)` -/
  | rep (p : Char → Bool) (lo : Nat) (hi : Option Nat)
  /-- alternation of case-insensitive literals, tried left to right -/
  | altLit (alts : List (List Char))
  /-- the word boundary `\b` -/
  | wordB

/-- A compiled regex with exactly one capturing group: `pre` before the
group, `cap` the group, `post` after it (as in the source patterns). -/
structure RPat where
  pre : List RElem
  cap : List RElem
  post : List RElem

instance : Inhabited RPat := ⟨⟨[], [], []⟩⟩

/-- Length of the maximal prefix of `s` whose characters satisfy `p`. -/
def runLen (p : Char → Bool) : List Char → Nat
  | [] => 0
  | c :: cs => if p c then runLen p cs + 1 else 0

/-- `\b` holds between `prev` and the next character iff exactly one side
is a word character (ends of the string count as non-word). -/
def atWordBoundary (prev : Option Char) (next : Option Char) : Bool :=
  let w : Option Char → Bool := fun o => match o with
    | none => false
    | some c => isWordChar c
  w prev != w next

/-- Last character of `consumed`, falling back to the previous character. -/
def lastOr (consumed : List Char) (prev : Option Char) : Option Char :=
  match consumed.getLast? with
  | some c => some c
  | none => prev

/-- All ways one element can match a prefix of `s`, in backtracking
priority order; each possibility is (consumed, new previous char, rest). -/
def matchElem (e : RElem) (prev : Option Char) (s : List Char) :
    List (List Char × Option Char × List Char) :=
  match e with
  | .cls p =>
    match s with
    | [] => []
    | c :: cs => if p c then [([c], some c, cs)] else []
  | .rep p lo hi =>
    let r := runLen p s
    let top := min r (hi.getD r)
    -- greedy: longest first, down to `lo`
    (List.range (top + 1 - lo)).map (fun k =>
      let n := top - k
      (s.take n, lastOr (s.take n) prev, s.drop n))
  | .altLit alts =>
    alts.filterMap (fun l =>
      if ciPrefixL l s then
        some (s.take l.length, lastOr (s.take l.length) prev, s.drop l.length)
      else none)
  | .wordB =>
    if atWordBoundary prev s.head? then [([], prev, s)] else []

/-- All ways a sequence of elements can match a prefix of `s`, in
backtracking priority order. -/
def matchSeq (es : List RElem) (prev : Option Char) (s : List Char) :
    List (List Char × Option Char × List Char) :=
  match es with
  | [] => [([], prev, s)]
  | e :: rest =>
    (matchElem e prev s).flatMap (fun x =>
      (matchSeq rest x.2.1 x.2.2).map (fun y =>
        (x.1 ++ y.1, y.2.1, y.2.2)))

/-- Try to match `pat` at the current position: the first possibility in
priority order, returning (whole match, captured group). -/
def tryMatchAt (pat : RPat) (prev : Option Char) (s : List Char) :
    Option (List Char × List Char) :=
  ((matchSeq pat.pre prev s).flatMap (fun a =>
    (matchSeq pat.cap a.2.1 a.2.2).flatMap (fun b =>
      (matchSeq pat.post b.2.1 b.2.2).map (fun c =>
        (a.1 ++ b.1 ++ c.1, b.1))))).head?

/-- Leftmost match of `pat` in `s`: the text before the match, the match
with its capture, the previous-character state and the remainder after the
match. -/
def searchM (pat : RPat) (prev : Option Char) (s : List Char) :
    Option (List Char × (List Char × List Char) × Option Char × List Char) :=
  match tryMatchAt pat prev s with
  | some (m0, cap) => some ([], (m0, cap), lastOr m0 prev, s.drop m0.length)
  | none =>
    match s with
    | [] => none
    | c :: cs =>
      (searchM pat (some c) cs).map (fun r => (c :: r.1, r.2.1, r.2.2.1, r.2.2.2))

/-- Successive non-overlapping matches (JS `matchAll` with the `g` flag);
`fuel` bounds the number of steps. -/
def matchAllAux (fuel : Nat) (pat : RPat) (prev : Option Char) (s : List Char) :
    List (List Char × List Char) :=
  match fuel with
  | 0 => []
  | fuel + 1 =>
    match searchM pat prev s with
    | none => []
    | some (_, m, p1, rest) =>
      if m.1.isEmpty then
        -- a zero-length match advances `lastIndex` by one (never hit by the
        -- source patterns, whose matches are nonempty)
        m :: (match rest with
              | [] => []
              | c :: cs => matchAllAux fuel pat (some c) cs)
      else
        m :: matchAllAux fuel pat p1 rest

/-- All matches of `pat` in `s` (JS matchAll with flags gi). -/
def matchAllM (pat : RPat) (s : List Char) : List (List Char × List Char) :=
  matchAllAux (s.length + 1) pat none s

/-- JS `s.replace(pat, repl)` with a non-global regex: replace the first
match only. -/
def replaceFirstM (pat : RPat) (repl : List Char) (s : List Char) : List Char :=
  match searchM pat none s with
  | some (pre, m, _, _) => pre ++ repl ++ s.drop (pre.length + m.1.length)
  | none => s

/-- JS `s.replace(pat, repl)` with a global regex: replace every match
(scanning the input left to right, non-overlapping). -/
def replaceAllAux (fuel : Nat) (pat : RPat) (repl : List Char)
    (prev : Option Char) (s : List Char) : List Char :=
  match fuel with
  | 0 => s
  | fuel + 1 =>
    match searchM pat prev s with
    | none => s
    | some (pre, m, p1, rest) =>
      if m.1.isEmpty then
        pre ++ repl ++ (match rest with
          | [] => []
          | c :: cs => c :: replaceAllAux fuel pat repl (some c) cs)
      else
        pre ++ repl ++ replaceAllAux fuel pat repl p1 rest

/-- JS global-regex replace over the whole string. -/
def replaceAllM (pat : RPat) (repl : List Char) (s : List Char) : List Char :=
  replaceAllAux (s.length + 1) pat repl none s

/-! ### The regexes of `email-parser.js`, compiled

Helper shorthands used below. -/

/-- A case-insensitive literal, as a sequence of one-character classes. -/
def litCI (s : String) : List RElem :=
  s.data.map (fun c => RElem.cls (fun d => ciEq c d))

/-- `[:\-\s]` -/
def clsColonDashWs (c : Char) : Bool := c = ':' || c = '-' || jsSpace c

/-- `[:\s]` -/
def clsColonWs (c : Char) : Bool := c = ':' || jsSpace c

/-- `[-\s]` -/
def clsDashWs (c : Char) : Bool := c = '-' || jsSpace c

/-- `[\-\_\s]` -/
def clsDashUndWs (c : Char) : Bool := c = '-' || c = '_' || jsSpace c

/-- `[A-Z0-9\-\_]` under the `i` flag -/
def clsRefChar (c : Char) : Bool := c.isAlphanum || c = '-' || c = '_'

/-- `[A-Z]` under the `i` flag -/
def clsAlpha (c : Char) : Bool := c.isAlpha

/-- `[A-Z0-9]` under the `i` flag -/
def clsAlnum (c : Char) : Bool := c.isAlphanum

/-- `[A-HJ-Z]` under the `i` flag (letters except `i`/`I`) -/
def clsAHJZ (c : Char) : Bool :=
  let u := c.toUpper
  ('A' ≤ u && u ≤ 'H') || ('J' ≤ u && u ≤ 'Z')

/-- `[^>]` -/
def clsNotGt (c : Char) : Bool := c ≠ '>'

/-- `/<[^>]*>/` (HTML tags removed by `sanitizeContent`). -/
def patHtmlTag : RPat :=
  ⟨[.cls (fun c => c = '<'), .rep clsNotGt 0 none, .cls (fun c => c = '>')], [], []⟩

/-- `/\s+/` (whitespace runs collapsed by `sanitizeContent`). -/
def patWsRun : RPat :=
  ⟨[.rep jsSpace 1 none], [], []⟩

/-- The nine exclusion patterns of `email-parser.js`, in source order:
`/MC\s*\d+/i`, `/DOT\s*\d+/i`, `/USDOT\s*\d+/i`, `/invoice\s*#?\s*\d+/i`,
`/bill\s*#?\s*\d+/i`, `/po\s*#?\s*\d+/i`, `/phone:?\s*\d+/i`,
`/tel:?\s*\d+/i`, `/fax:?\s*\d+/i`. -/
def exclusionPatterns : List RPat :=
  [ ⟨litCI "mc" ++ [.rep jsSpace 0 none, .rep isDigitCh 1 none], [], []⟩
  , ⟨litCI "dot" ++ [.rep jsSpace 0 none, .rep isDigitCh 1 none], [], []⟩
  , ⟨litCI "usdot" ++ [.rep jsSpace 0 none, .rep isDigitCh 1 none], [], []⟩
  , ⟨litCI "invoice" ++ [.rep jsSpace 0 none, .rep (fun c => c = '#') 0 (some 1),
       .rep jsSpace 0 none, .rep isDigitCh 1 none], [], []⟩
  , ⟨litCI "bill" ++ [.rep jsSpace 0 none, .rep (fun c => c = '#') 0 (some 1),
       .rep jsSpace 0 none, .rep isDigitCh 1 none], [], []⟩
  , ⟨litCI "po" ++ [.rep jsSpace 0 none, .rep (fun c => c = '#') 0 (some 1),
       .rep jsSpace 0 none, .rep isDigitCh 1 none], [], []⟩
  , ⟨litCI "phone" ++ [.rep (fun c => c = ':') 0 (some 1),
       .rep jsSpace 0 none, .rep isDigitCh 1 none], [], []⟩
  , ⟨litCI "tel" ++ [.rep (fun c => c = ':') 0 (some 1),
       .rep jsSpace 0 none, .rep isDigitCh 1 none], [], []⟩
  , ⟨litCI "fax" ++ [.rep (fun c => c = ':') 0 (some 1),
       .rep jsSpace 0 none, .rep isDigitCh 1 none], [], []⟩
  ]

/-- The ten candidate patterns of `email-parser.js`, in source (priority)
order.  All are executed with flags gi (the source recompiles each one as a global case-insensitive regex):

0. `/(?:load\s*(?:ref|reference|number|id|#)[:\-\s]*)([A-Z0-9\-\_]+)/i`
1. `/(?:quote\s*(?:ref|reference|number|id|#)[:\-\s]*)([A-Z0-9\-\_]+)/i`
2. `/(?:order\s*#?\s*)(\d{6,8})/i`
3. `/(?:reference\s+number\s+)(\d{6,8})/i`
4. `/(?:ref[:\s]+)(\d{6,8})/i`
5. `/(?:QF[-\s]?)(\d{6,8})/i`
6. `/(?:QUOTE[-\s]?)(\d{6,8})/i`
7. `/([A-Z]{2,4}[\-\_\s]*\d{4,8}[\-\_\s]*[A-Z0-9]*)/`
8. `/([A-HJ-Z]+\d{4,8}[A-Z0-9]*)/`
9. `/\b(\d{6})\b/`
-/
def loadPatterns : List RPat :=
  [ ⟨litCI "load" ++ [.rep jsSpace 0 none,
       .altLit ["ref".data, "reference".data, "number".data, "id".data, "#".data],
       .rep clsColonDashWs 0 none],
      [.rep clsRefChar 1 none], []⟩
  , ⟨litCI "quote" ++ [.rep jsSpace 0 none,
       .altLit ["ref".data, "reference".data, "number".data, "id".data, "#".data],
       .rep clsColonDashWs 0 none],
      [.rep clsRefChar 1 none], []⟩
  , ⟨litCI "order" ++ [.rep jsSpace 0 none, .rep (fun c => c = '#') 0 (some 1),
       .rep jsSpace 0 none],
      [.rep isDigitCh 6 (some 8)], []⟩
  , ⟨litCI "reference" ++ [.rep jsSpace 1 none] ++ litCI "number" ++ [.rep jsSpace 1 none],
      [.rep isDigitCh 6 (some 8)], []⟩
  , ⟨litCI "ref" ++ [.rep clsColonWs 1 none],
      [.rep isDigitCh 6 (some 8)], []⟩
  , ⟨litCI "qf" ++ [.rep clsDashWs 0 (some 1)],
      [.rep isDigitCh 6 (some 8)], []⟩
  , ⟨litCI "quote" ++ [.rep clsDashWs 0 (some 1)],
      [.rep isDigitCh 6 (some 8)], []⟩
  , ⟨[], [.rep clsAlpha 2 (some 4), .rep clsDashUndWs 0 none, .rep isDigitCh 4 (some 8),
       .rep clsDashUndWs 0 none, .rep clsAlnum 0 none], []⟩
  , ⟨[], [.rep clsAHJZ 1 none, .rep isDigitCh 4 (some 8), .rep clsAlnum 0 none], []⟩
  , ⟨[.wordB], [.rep isDigitCh 6 (some 6)], [.wordB]⟩
  ]

/-! ### `EmailParser` (src/zapier-modules/parsers/email-parser.js) -/

/-- `sanitizeContent`: strip HTML tags, collapse whitespace runs to single
spaces, truncate to 5000 characters. -/
def sanitizeContent (content : List Char) : List Char :=
  (replaceAllM patWsRun [' '] (replaceAllM patHtmlTag [' '] content)).take 5000

/-- `removeExclusions`: for each exclusion pattern, `String.replace` with a
non-global regex, i.e. only the first match of each pattern is removed. -/
def removeExclusions (content : List Char) : List Char :=
  exclusionPatterns.foldl (fun processed pat => replaceFirstM pat [] processed) content

/-- `normalizeReference`: trim, uppercase, keep only `\w` and `-`
(note JS `\w` includes the underscore). -/
def normalizeReference (reference : List Char) : List Char :=
  ((trimJS reference).map Char.toUpper).filter (fun c => isWordChar c || c = '-')

/-- The banned prefixes of `validationRules` (source list: MC, DOT, PO,
INV). -/
def bannedPrefixList : List (List Char) :=
  ["MC".data, "DOT".data, "PO".data, "INV".data]

/-- `validateReference` (`isValid` of the returned object): length in
[4, 20], contains a digit, does not start with a banned prefix. -/
def validateReference (reference : List Char) : Bool :=
  decide (4 ≤ reference.length) && decide (reference.length ≤ 20) &&
    reference.any isDigitCh &&
    bannedPrefixList.all (fun p => !(p.isPrefixOf reference))

/-- `calculateConfidence`: base `100 - 10 * patternIndex`; +20 capped at
100 if the matched text contains "load", "quote" or "reference"
(case-insensitively); −30 floored at 50 for the two lowest-priority
patterns. -/
def calculateConfidence (patternIndex : Nat) (matchedText : List Char) : Int :=
  let base : Int := 100 - 10 * patternIndex
  let lower := matchedText.map Char.toLower
  let boosted :=
    if substrOf "load".data lower || substrOf "quote".data lower ||
        substrOf "reference".data lower then
      min 100 (base + 20)
    else base
  if loadPatterns.length - 2 ≤ patternIndex then
    max 50 (boosted - 30)
  else boosted

/-- The inner loop over the matches of one pattern: skip a match whose
capture is empty (`if (match[1])`), normalize the capture, keep the first
whose normalization validates; returns (whole matched text, candidate). -/
def findFirstValid : List (List Char × List Char) → Option (List Char × List Char)
  | [] => none
  | (m0, cap) :: ms =>
    if !cap.isEmpty && validateReference (normalizeReference cap) then
      some (m0, normalizeReference cap)
    else findFirstValid ms

/-- The outer loop over the patterns, carrying the 0-based pattern index:
the first pattern with a valid candidate wins and the scan stops. -/
def extractScan : List RPat → Nat → List Char → Option (Nat × List Char × List Char)
  | [], _, _ => none
  | pat :: rest, i, s =>
    match findFirstValid (matchAllM pat s) with
    | some (m0, cand) => some (i, m0, cand)
    | none => extractScan rest (i + 1) s

/-- The result object of `extractLoadReference`.  `matchedPatternIdx`
holds the index of the winning pattern (the source stores
`pattern.toString()`; the index identifies the same pattern). -/
structure ExtractionResult where
  found : Bool
  reference : Option String
  confidence : Int
  matchedPatternIdx : Option Nat
  message : String
deriving DecidableEq

/-- Result for missing / non-string / empty (falsy) input. -/
def noContentResult : ExtractionResult :=
  ⟨false, none, 0, none, "No email content provided"⟩

/-- Result when no pattern yields a valid candidate. -/
def notFoundResult : ExtractionResult :=
  ⟨false, none, 0, none, "No valid load reference found in email"⟩

/-- The exclusion-stripped, sanitized content that the candidate patterns
are run on. -/
def cleanContent (s : String) : List Char :=
  removeExclusions (sanitizeContent s.data)

/-- `extractLoadReference` of `email-parser.js`.  The argument is
`Option String`: `none` models the JS `null`/`undefined`/non-string
inputs rejected by the guard, which also rejects the empty string
(falsy). -/
def extractLoadReference (emailContent : Option String) : ExtractionResult :=
  match emailContent with
  | none => noContentResult
  | some str =>
    if str = "" then noContentResult
    else
      match extractScan loadPatterns 0 (cleanContent str) with
      | some (i, m0, cand) =>
        ⟨true, some (String.mk cand), calculateConfidence i m0, some i,
          "Load reference successfully extracted"⟩
      | none => notFoundResult

/-! ### `extractMultipleReferences` (email-parser.js, batch extraction) -/

/-- One entry of the list returned by `extractMultipleReferences`. -/
structure RefEntry where
  reference : String
  confidence : Int
deriving DecidableEq

/-- Descending-confidence order used by `references.sort((a, b) =>
b.confidence - a.confidence)`. -/
def confGe (a b : RefEntry) : Prop := b.confidence ≤ a.confidence

instance : DecidableRel confGe := fun _ _ => inferInstanceAs (Decidable (_ ≤ _))

instance : IsTotal RefEntry confGe := ⟨fun a b => le_total b.confidence a.confidence⟩

instance : IsTrans RefEntry confGe := ⟨fun _ _ _ h1 h2 => le_trans h2 h1⟩

/-- Inner loop of `extractMultipleReferences` over the matches of pattern
`i`: a match with a nonempty capture is considered only while fewer than
`maxR` entries have been collected; its normalization is skipped if already
seen, validated otherwise, and appended together with its confidence.
Returns the grown entry list and seen set. -/
def multiInner (i : Nat) (maxR : Nat) :
    List (List Char × List Char) → List RefEntry → List (List Char) →
      List RefEntry × List (List Char)
  | [], acc, seen => (acc, seen)
  | (m0, cap) :: rest, acc, seen =>
    if !cap.isEmpty && acc.length < maxR then
      if normalizeReference cap ∈ seen then
        multiInner i maxR rest acc seen
      else if validateReference (normalizeReference cap) then
        multiInner i maxR rest
          (acc ++ [⟨String.mk (normalizeReference cap), calculateConfidence i m0⟩])
          (normalizeReference cap :: seen)
      else
        multiInner i maxR rest acc seen
    else
      multiInner i maxR rest acc seen

/-- Outer loop of `extractMultipleReferences` over all patterns. -/
def multiScan (maxR : Nat) :
    List RPat → Nat → List Char → List RefEntry → List (List Char) → List RefEntry
  | [], _, _, acc, _ => acc
  | pat :: rest, i, content, acc, seen =>
    match multiInner i maxR (matchAllM pat content) acc seen with
    | (acc2, seen2) => multiScan maxR rest (i + 1) content acc2 seen2

/-- `extractMultipleReferences(emailContent, maxReferences = 5)`: collect
up to `maxReferences` distinct valid references over all patterns, then
sort by descending confidence (JS `sort` is stable; insertion sort models
it). -/
def extractMultipleReferences (emailContent : String) (maxReferences : Nat) :
    List RefEntry :=
  List.insertionSort confGe (multiScan maxReferences loadPatterns 0
    (removeExclusions (sanitizeContent emailContent.data)) [] [])

/-! ### Declarative description of the extraction priority (for claim C5)

`validCandidates` lists, in match order, the matches of one pattern whose
normalized capture validates; `leastIdx` is the least pattern index with a
valid candidate. -/

/-- Bool test used by the inner loop: nonempty capture whose normalization
validates. -/
def isValidMC (mc : List Char × List Char) : Bool :=
  !mc.2.isEmpty && validateReference (normalizeReference mc.2)

/-- The valid matches of a pattern, leftmost first. -/
def validCandidates (pat : RPat) (s : List Char) : List (List Char × List Char) :=
  (matchAllM pat s).filter isValidMC

/-- Least index (into a pattern list) of a pattern with a valid candidate. -/
def leastIdx (s : List Char) : List RPat → Option Nat
  | [] => none
  | pat :: rest =>
    if !(validCandidates pat s).isEmpty then some 0
    else (leastIdx s rest).map (· + 1)

/-- Declarative winner: the leftmost valid match of the highest-priority
pattern that has one, together with the index of that pattern. -/
def prioWinner (s : List Char) : Option (Nat × List Char × List Char) :=
  (leastIdx s loadPatterns).bind (fun i =>
    (validCandidates (loadPatterns.getD i default) s).head?.map (fun mc =>
      (i, mc.1, normalizeReference mc.2)))

/-! ### Scenario classification

`LoadRecord` is the shape produced by `transformLoadData`
(zapier-code-steps/lookup-load-details.js) and consumed by the formatter. -/

/-- A pickup or delivery stop. -/
structure LoadStop where
  location : String
  date : Option String
deriving DecidableEq

/-- Commodity block of a load record. -/
structure CommodityInfo where
  description : String
  weight : String
  hazmat : Bool
deriving DecidableEq

/-- Rate block of a load record (`amount: number|null`). -/
structure RateInfo where
  amount : Option Int
  formatted : String
deriving DecidableEq

/-- A load record as consumed by the response formatter. -/
structure LoadRecord where
  pickup : LoadStop
  delivery : LoadStop
  commodity : CommodityInfo
  equipment : String
  rate : RateInfo
  distance : Option String
deriving DecidableEq

/-- `isCompleteData` (response-formatter.js): every required field is
truthy and not the string TBD. -/
def isCompleteData (ld : LoadRecord) : Bool :=
  (ld.pickup.location != "" && ld.pickup.location != "TBD") &&
  (ld.delivery.location != "" && ld.delivery.location != "TBD") &&
  (ld.commodity.weight != "" && ld.commodity.weight != "TBD") &&
  (match ld.rate.amount with
   | some n => n != 0
   | none => false)

/-- The outcome of one lookup attempt (spec §3, `LookupOutcome`). -/
inductive LookupOutcome where
  | success (data : LoadRecord)
  | notFound
  | error (message : String)
  | skipped
deriving DecidableEq

/-- The `kind` tag of an outcome. -/
def LookupOutcome.kind : LookupOutcome → String
  | .success _ => "success"
  | .notFound => "notFound"
  | .error _ => "error"
  | .skipped => "skipped"

/-- Scenario selection as implemented by `processEmail`
(core/load-automation-service.js): no reference found selects
`no_reference`; otherwise a successful lookup leaves `loadData` set and
selects `load_found`, a lookup failure leaves `lookupError` set and
selects `error`, and a not-found or skipped lookup leaves both null and
selects `load_pending`. -/
def classifyService (found : Bool) (o : LookupOutcome) : String :=
  if !found then "no_reference"
  else
    let loadData : Option LoadRecord :=
      match o with
      | .success d => some d
      | _ => none
    let lookupError : Option String :=
      match o with
      | .error m => some m
      | _ => none
    if loadData.isSome then "load_found"
    else if lookupError.isSome then "error"
    else "load_pending"

/-- The classification rules in the order the claim states them
(first match wins): found == false, then kind error, then kind success,
otherwise pending. -/
def classifySpec (found : Bool) (o : LookupOutcome) : String :=
  if found = false then "no_reference"
  else if o.kind = "error" then "error"
  else if o.kind = "success" then "load_found"
  else "load_pending"

/-! ### `ResponseFormatter` (src/zapier-modules/formatters/response-formatter.js)

Exceptions thrown by the formatter are modelled with `Except String`. -/

/-- A formatted reply (the `metadata` object of the source carries no
behaviour and is omitted). -/
structure EmailReply where
  subject : String
  body : String
deriving DecidableEq

/-- The data bundle passed to `formatResponse`; absent JS properties are
`none`. -/
structure FormatData where
  loadData : Option LoadRecord
  originalSubject : Option String
  loadReference : Option String
  errorType : Option String
deriving DecidableEq

/-- A bundle with every property absent. -/
def emptyData : FormatData := ⟨none, none, none, none⟩

/-- JS string coercion of a possibly-undefined value (interpolation and
`String.replace` render `undefined` as "undefined"). -/
def jsStr : Option String → String
  | none => "undefined"
  | some s => s

/-- JS truthiness of a possibly-undefined string. -/
def jsTruthy : Option String → Bool
  | none => false
  | some s => !(s == "")

/-- JS `x || d` for a possibly-undefined string. -/
def jsOr (x : Option String) (d : String) : String :=
  if jsTruthy x then jsStr x else d

/-- Replace the first occurrence of a literal substring
(JS `String.prototype.replace` with a string pattern). -/
def replaceFirstL (needle repl : List Char) : List Char → List Char
  | [] => if needle.isPrefixOf ([] : List Char) then repl else []
  | c :: cs =>
    if needle.isPrefixOf (c :: cs) then repl ++ (c :: cs).drop needle.length
    else c :: replaceFirstL needle repl cs

/-- String-level wrapper of `replaceFirstL`. -/
def replaceFirstStr (needle repl s : String) : String :=
  String.mk (replaceFirstL needle.data repl.data s.data)

/-- A `\x7b\x7bNAME\x7d\x7d` template placeholder. -/
def ph (name : String) : String :=
  "\x7b\x7b" ++ name ++ "\x7d\x7d"

/-- The company name of the default-constructed formatter. -/
def companyName : String := "Balto Booking"

/-- `getDefaultLoadFoundTemplate`. -/
def defaultLoadFoundTemplate : String :=
  "Hello,\n\nThank you for your inquiry about load " ++ ph "LOAD_REFERENCE" ++
  ". Here are the complete details:\n\n📦 LOAD INFORMATION:\n• Reference: " ++
  ph "LOAD_REFERENCE" ++ "\n• Equipment: " ++ ph "EQUIPMENT" ++
  "\n• Commodity: " ++ ph "COMMODITY" ++ "\n• Weight: " ++ ph "WEIGHT" ++
  "\n• Distance: " ++ ph "DISTANCE" ++ ph "SPECIAL_NOTES" ++
  "\n\n📍 PICKUP:\n• Location: " ++ ph "PICKUP_LOCATION" ++ "\n• Date: " ++
  ph "PICKUP_DATE" ++ "\n\n📍 DELIVERY:\n• Location: " ++
  ph "DELIVERY_LOCATION" ++ "\n• Date: " ++ ph "DELIVERY_DATE" ++
  "\n\n💰 RATE: " ++ ph "RATE" ++
  "\n\n🚛 CAPACITY CONFIRMATION:\nTo confirm availability, please let us know:\n" ++
  "1. When and where will you be empty for pickup?\n" ++
  "2. Do you have the required equipment type available?\n" ++
  "3. Any special requirements or concerns about this load?\n\n" ++
  "We're ready to book this load immediately upon your confirmation.\n\n"

/-- `getDefaultLoadPendingTemplate`. -/
def defaultLoadPendingTemplate : String :=
  "Hello,\n\nThank you for your inquiry regarding load " ++ ph "LOAD_REFERENCE" ++
  ".\n\nI've located this load in our system and am pulling the complete details now. You'll receive:\n" ++
  "• Pickup and delivery locations with dates\n• Commodity information and weight\n" ++
  "• Our competitive rate\n• Any special requirements\n\n" ++
  "This information will be sent within the next few minutes.\n\n" ++
  "🚛 QUICK QUESTION: When and where will you be empty for pickup?\n\n"

/-- `getDefaultNoReferenceTemplate`. -/
def defaultNoReferenceTemplate : String :=
  "Hello,\n\nThank you for reaching out about this load opportunity.\n\n" ++
  "To provide you with accurate pricing and availability, could you please provide one of the following:\n" ++
  "• DAT load reference number\n• QuoteFactory load ID\n• Your internal load/order number\n\n" ++
  "This will help us:\n✓ Pull exact load details from our system\n" ++
  "✓ Provide competitive and accurate pricing\n✓ Confirm equipment availability\n" ++
  "✓ Respond faster with a complete quote\n\n" ++
  "Once you provide the reference number, we'll get back to you immediately with our availability and rate.\n\n"

/-- `getDefaultErrorTemplate`. -/
def defaultErrorTemplate : String :=
  "Hello,\n\nThank you for your email. We experienced a temporary issue while " ++
  ph "ERROR_TYPE" ++ ".\n\n" ++
  "Our team has been notified and we're working to resolve this quickly. In the meantime, please feel free to:\n" ++
  "• Reply with your load reference number\n• Call us directly at your convenience\n" ++
  "• Send any additional load details you have\n\n" ++
  "We apologize for any inconvenience and look forward to assisting you with this load opportunity.\n\n"

/-- `getDefaultSignature` (with the default company name). -/
def signatureTemplate : String :=
  "Best regards,\n" ++ companyName ++
  "\n\n---\nThis is an automated response with real-time load data.\nFor immediate assistance, please reply to this email."

/-- `formatSubject`: synthesize when the original subject is falsy; else
strip one leading `re:`/`fwd:`/`fw:` (the regex `/^(re:|fwd:|fw:)\s*/gi`
is anchored, so it fires at most once), trim, append `" - Load {ref}"`
when the reference is truthy and not already a substring, and add
`"Re: "`. -/
def stripReFwd (s : List Char) : List Char :=
  if ciPrefixL "re:".data s then (s.drop 3).dropWhile jsSpace
  else if ciPrefixL "fwd:".data s then (s.drop 4).dropWhile jsSpace
  else if ciPrefixL "fw:".data s then (s.drop 3).dropWhile jsSpace
  else s

/-- The cleaned original subject: one leading prefix stripped, trimmed. -/
def cleanSubject (s : String) : String :=
  String.mk (trimJS (stripReFwd s.data))

/-- `formatSubject(originalSubject, loadReference)`. -/
def formatSubject (originalSubject loadReference : Option String) : String :=
  if !jsTruthy originalSubject then
    if jsTruthy loadReference then "Load " ++ jsStr loadReference ++ " - Quote Details"
    else "Load Inquiry Response"
  else
    let subject := cleanSubject (jsStr originalSubject)
    let subject :=
      if jsTruthy loadReference && !substrOf (jsStr loadReference).data subject.data then
        subject ++ " - Load " ++ jsStr loadReference
      else subject
    "Re: " ++ subject

/-- The placeholder substitutions of `formatLoadFoundResponse` (JS
`replace` with a string pattern replaces the first occurrence only, so
the second `LOAD_REFERENCE` placeholder of the default template stays
literal, as in the source). -/
def loadFoundBody (data : FormatData) (ld : LoadRecord) : String :=
  let body := defaultLoadFoundTemplate
  let body := replaceFirstStr (ph "LOAD_REFERENCE") (jsStr data.loadReference) body
  let body := replaceFirstStr (ph "PICKUP_LOCATION") ld.pickup.location body
  let body := replaceFirstStr (ph "PICKUP_DATE") (jsOr ld.pickup.date "TBD") body
  let body := replaceFirstStr (ph "DELIVERY_LOCATION") ld.delivery.location body
  let body := replaceFirstStr (ph "DELIVERY_DATE") (jsOr ld.delivery.date "TBD") body
  let body := replaceFirstStr (ph "COMMODITY") ld.commodity.description body
  let body := replaceFirstStr (ph "WEIGHT") ld.commodity.weight body
  let body := replaceFirstStr (ph "EQUIPMENT") ld.equipment body
  let body := replaceFirstStr (ph "RATE") ld.rate.formatted body
  let body := replaceFirstStr (ph "DISTANCE") (jsOr ld.distance "TBD") body
  if ld.commodity.hazmat then
    replaceFirstStr (ph "SPECIAL_NOTES")
      "\n⚠️ HAZMAT: This load contains hazardous materials." body
  else
    replaceFirstStr (ph "SPECIAL_NOTES") "" body

/-- `formatLoadFoundResponse`: accessing `loadData.pickup` with no load
record throws a TypeError; otherwise substitute the placeholders and
append the signature. -/
def formatLoadFoundResponse (data : FormatData) : Except String EmailReply :=
  match data.loadData with
  | none => Except.error "TypeError: cannot read properties of undefined"
  | some ld =>
    Except.ok ⟨formatSubject data.originalSubject data.loadReference,
      loadFoundBody data ld ++ signatureTemplate⟩

/-- `formatLoadPendingResponse`. -/
def formatLoadPendingResponse (data : FormatData) : Except String EmailReply :=
  Except.ok ⟨formatSubject data.originalSubject data.loadReference,
    replaceFirstStr (ph "LOAD_REFERENCE") (jsStr data.loadReference)
      defaultLoadPendingTemplate ++ signatureTemplate⟩

/-- `formatNoReferenceResponse`. -/
def formatNoReferenceResponse (data : FormatData) : Except String EmailReply :=
  Except.ok ⟨"Re: " ++ jsStr data.originalSubject ++ " - Reference Number Needed",
    defaultNoReferenceTemplate ++ signatureTemplate⟩

/-- `formatErrorResponse` (errorType defaulting to "processing your request"). -/
def formatErrorResponse (data : FormatData) : Except String EmailReply :=
  let body := replaceFirstStr (ph "ERROR_TYPE")
    (jsOr data.errorType "processing your request") defaultErrorTemplate
  Except.ok ⟨"Re: " ++ jsStr data.originalSubject, body ++ signatureTemplate⟩

/-- `formatResponse`: dispatch on the scenario string; an unknown scenario
throws an unknown-scenario Error. -/
def formatResponse (scenario : String) (data : FormatData) : Except String EmailReply :=
  if scenario = "load_found" then formatLoadFoundResponse data
  else if scenario = "load_pending" then formatLoadPendingResponse data
  else if scenario = "no_reference" then formatNoReferenceResponse data
  else if scenario = "error" then formatErrorResponse data
  else Except.error ("Unknown scenario: " ++ scenario)

/-- The hardcoded fallback reply of the catch block of the webhook handler
(src/api/webhook.js, serverless handler). -/
def webhookFallbackReply : EmailReply :=
  ⟨"Re: Load Inquiry",
   "Thank you for your email. We are processing your inquiry and will respond shortly."⟩

/-- The try/catch of the webhook handler around reply production: any thrown
error is replaced by the hardcoded fallback reply. -/
def handlerCatch (r : Except String EmailReply) : EmailReply :=
  match r with
  | .ok reply => reply
  | .error _ => webhookFallbackReply

/-- Modelled from the spec: the Zapier Step 5 code step
`format-email-response.js` (which produces `reply_body_html`) is listed in
the module README and the setup guide but is absent from the repository.
Per spec §4.3 the HTML body is produced by HTML-escaping the plain body.
`escapeHtml` escapes `&`, `<` and `>`. -/
def escChar (c : Char) : List Char :=
  if c = '&' then "&amp;".data
  else if c = '<' then "&lt;".data
  else if c = '>' then "&gt;".data
  else [c]

/-- Modelled from the spec: HTML-escape a plain-text body. -/
def escapeHtml (s : String) : String :=
  String.mk (s.data.flatMap escChar)

/-- Modelled from the spec: convert newlines to `<br>` line breaks. -/
def newlinesToBr (s : String) : String :=
  String.mk (s.data.flatMap (fun c => if c = '\n' then "<br>".data else [c]))

/-- Modelled from the spec: `bodyHtml` is the escaped body with newlines
converted to line breaks. -/
def toBodyHtml (body : String) : String :=
  newlinesToBr (escapeHtml body)

/-! ### Lemmas about the extraction scan -/

/-- The inner loop returns the first valid match, i.e. the head of the
filtered match list. -/
theorem findFirstValid_eq (ms : List (List Char × List Char)) :
    findFirstValid ms =
      (ms.filter isValidMC).head?.map (fun mc => (mc.1, normalizeReference mc.2)) := by
  induction ms with
  | nil => rfl
  | cons m rest ih =>
    obtain ⟨m0, cap⟩ := m
    by_cases h : isValidMC (m0, cap) = true
    · rw [List.filter_cons_of_pos h]
      simp only [findFirstValid, isValidMC] at h ⊢
      rw [if_pos h]
      rfl
    · rw [List.filter_cons_of_neg (by simpa using h)]
      simp only [findFirstValid, isValidMC] at h ⊢
      rw [if_neg h]
      exact ih

/-- A successful inner loop yields a validated normalization of some
captured text. -/
theorem findFirstValid_some (ms : List (List Char × List Char))
    (m0 cand : List Char) (h : findFirstValid ms = some (m0, cand)) :
    validateReference cand = true ∧ ∃ cap, cand = normalizeReference cap := by
  induction ms with
  | nil => simp [findFirstValid] at h
  | cons m rest ih =>
    obtain ⟨m1, cap⟩ := m
    by_cases hv : (!cap.isEmpty && validateReference (normalizeReference cap)) = true
    · rw [findFirstValid, if_pos hv] at h
      simp only [Option.some.injEq, Prod.mk.injEq] at h
      obtain ⟨-, h2⟩ := h
      subst h2
      simp only [Bool.and_eq_true] at hv
      exact ⟨hv.2, cap, rfl⟩
    · rw [findFirstValid, if_neg hv] at h
      exact ih h

/-- The pattern scan is the declarative priority description: the least
pattern index with a valid candidate wins, with the leftmost valid match
of that pattern. -/
theorem extractScan_eq (s : List Char) (pats : List RPat) (k : Nat) :
    extractScan pats k s =
      (leastIdx s pats).bind (fun j =>
        (validCandidates (pats.getD j default) s).head?.map (fun mc =>
          (k + j, mc.1, normalizeReference mc.2))) := by
  induction pats generalizing k with
  | nil => simp [extractScan, leastIdx]
  | cons pat rest ih =>
    cases hv : validCandidates pat s with
    | nil =>
      have hff : findFirstValid (matchAllM pat s) = none := by
        rw [findFirstValid_eq]
        have : (matchAllM pat s).filter isValidMC = [] := hv
        rw [this]
        rfl
      have hvempty : (validCandidates pat s).isEmpty = true := by rw [hv]; rfl
      rw [extractScan, hff]
      rw [leastIdx, hvempty]
      simp only [Bool.not_true, Bool.false_eq_true, if_false]
      rw [ih (k + 1)]
      cases hL : leastIdx s rest with
      | none => rfl
      | some j =>
        have harith : k + (j + 1) = k + 1 + j := by omega
        simp only [Option.map_some', Option.some_bind, List.getD_cons_succ]
        rw [harith]
    | cons mc tail =>
      have hff : findFirstValid (matchAllM pat s) = some (mc.1, normalizeReference mc.2) := by
        rw [findFirstValid_eq]
        have : (matchAllM pat s).filter isValidMC = mc :: tail := hv
        rw [this]
        rfl
      have hvne : (validCandidates pat s).isEmpty = false := by rw [hv]; rfl
      rw [extractScan, hff]
      rw [leastIdx, hvne]
      simp only [Bool.not_false, if_true, Option.some_bind, List.getD_cons_zero, hv,
        List.head?_cons, Option.map_some', Nat.add_zero]

/-- The winning pattern index is in range. -/
theorem extractScan_some_lt (s : List Char) (pats : List RPat) (k i : Nat)
    (m c : List Char) (h : extractScan pats k s = some (i, m, c)) :
    i < k + pats.length := by
  induction pats generalizing k with
  | nil => simp [extractScan] at h
  | cons pat rest ih =>
    rw [extractScan] at h
    cases hff : findFirstValid (matchAllM pat s) with
    | some v =>
      obtain ⟨mv, cv⟩ := v
      rw [hff] at h
      simp only [Option.some.injEq, Prod.mk.injEq] at h
      obtain ⟨h1, -⟩ := h
      subst h1
      simp only [List.length_cons]
      omega
    | none =>
      rw [hff] at h
      have := ih (k + 1) h
      simp only [List.length_cons]
      omega

/-- A successful scan yields a validated normalization of some capture. -/
theorem extractScan_some_valid (s : List Char) (pats : List RPat) (k i : Nat)
    (m c : List Char) (h : extractScan pats k s = some (i, m, c)) :
    validateReference c = true ∧ ∃ cap, c = normalizeReference cap := by
  induction pats generalizing k with
  | nil => simp [extractScan] at h
  | cons pat rest ih =>
    rw [extractScan] at h
    cases hff : findFirstValid (matchAllM pat s) with
    | some v =>
      obtain ⟨mv, cv⟩ := v
      rw [hff] at h
      simp only [Option.some.injEq, Prod.mk.injEq] at h
      obtain ⟨-, -, h2c⟩ := h
      rw [← h2c]
      exact findFirstValid_some _ _ _ hff
    | none =>
      rw [hff] at h
      exact ih (k + 1) h

/-- The confidence formula stays within [0, 100] for every in-range
pattern index. -/
theorem calculateConfidence_bounds (i : Nat) (m : List Char)
    (hi : i < loadPatterns.length) :
    0 ≤ calculateConfidence i m ∧ calculateConfidence i m ≤ 100 := by
  have h10 : loadPatterns.length = 10 := rfl
  rw [h10] at hi
  have hi9 : i ≤ 9 := by omega
  simp only [calculateConfidence, h10]
  rw [max_def, min_def]
  split_ifs <;> constructor <;> omega

/-- The pattern scan over the source pattern list equals the declarative
priority winner. -/
theorem extractScan_prioWinner (s : List Char) :
    extractScan loadPatterns 0 s = prioWinner s := by
  rw [extractScan_eq s loadPatterns 0]
  unfold prioWinner
  simp only [Nat.zero_add]

/-! ### Claim theorems for the reference extractor -/

/-- C5: extraction applies the candidate patterns in their fixed priority
order (labeled load/quote references first, the bare six-digit pattern
`\b(\d{6})\b` last, at index 9): the scan result is the leftmost valid
match of the least-index pattern that has one (`prioWinner` is literally
"least pattern index with a valid candidate, head of its valid-match
list"), so no lower-priority pattern contributes once a valid candidate
exists, and among several valid matches of one pattern the leftmost is
returned. -/
theorem extract_priority_first_valid_wins :
    (∀ s : List Char, extractScan loadPatterns 0 s = prioWinner s) ∧
    (∀ x : String, x ≠ "" →
      (extractLoadReference (some x)).matchedPatternIdx =
        (prioWinner (cleanContent x)).map (fun w => w.1) ∧
      (extractLoadReference (some x)).reference =
        (prioWinner (cleanContent x)).map (fun w => String.mk w.2.2)) := by
  refine ⟨extractScan_prioWinner, ?_⟩
  intro x hx
  have hsc := extractScan_prioWinner (cleanContent x)
  simp only [extractLoadReference, if_neg hx]
  rw [hsc]
  cases hP : prioWinner (cleanContent x) with
  | none => exact ⟨rfl, rfl⟩
  | some w =>
    obtain ⟨i, m0, cand⟩ := w
    exact ⟨rfl, rfl⟩

/-- C5 witness: on `"order #445566"` the winner is pattern 2 with
candidate `445566`. -/
theorem extract_priority_first_valid_wins_witness :
    (extractLoadReference (some "order #445566")).matchedPatternIdx =
      (prioWinner (cleanContent "order #445566")).map (fun w => w.1) ∧
    (extractLoadReference (some "order #445566")).reference =
      (prioWinner (cleanContent "order #445566")).map (fun w => String.mk w.2.2) :=
  extract_priority_first_valid_wins.2 "order #445566" (by decide)

/-- C6: the confidence of every extraction lies in [0, 100]; it is 0
whenever no reference is found; and when the scan succeeds with pattern
index `i` and matched text `m0` the confidence is exactly
`calculateConfidence i m0`, i.e. `100 - 10*i`, +20 capped at 100 when the
matched text contains load/quote/reference, −30 floored at 50 for the two
lowest-priority indices. -/
theorem extract_confidence_in_range :
    (∀ x : Option String,
      0 ≤ (extractLoadReference x).confidence ∧
        (extractLoadReference x).confidence ≤ 100) ∧
    (∀ x : Option String, (extractLoadReference x).found = false →
      (extractLoadReference x).confidence = 0) ∧
    (∀ (s : String) (i : Nat) (m0 cand : List Char), s ≠ "" →
      extractScan loadPatterns 0 (cleanContent s) = some (i, m0, cand) →
      (extractLoadReference (some s)).confidence = calculateConfidence i m0 ∧
      i < loadPatterns.length) := by
  refine ⟨?_, ?_, ?_⟩
  · intro x
    cases x with
    | none => exact ⟨by decide, by decide⟩
    | some s =>
      by_cases hs : s = ""
      · subst hs
        exact ⟨by decide, by decide⟩
      · simp only [extractLoadReference, if_neg hs]
        cases hscan : extractScan loadPatterns 0 (cleanContent s) with
        | none => exact ⟨by decide, by decide⟩
        | some t =>
          obtain ⟨i, m0, cand⟩ := t
          have hlt := extractScan_some_lt (cleanContent s) loadPatterns 0 i m0 cand hscan
          have hb := calculateConfidence_bounds i m0 (by simpa using hlt)
          exact hb
  · intro x h
    cases x with
    | none => rfl
    | some s =>
      by_cases hs : s = ""
      · subst hs; rfl
      · simp only [extractLoadReference, if_neg hs] at h ⊢
        cases hscan : extractScan loadPatterns 0 (cleanContent s) with
        | none => rfl
        | some t =>
          obtain ⟨i, m0, cand⟩ := t
          rw [hscan] at h
          exact absurd h (by simp)
  · intro s i m0 cand hs hscan
    refine ⟨?_, ?_⟩
    · simp only [extractLoadReference, if_neg hs, hscan]
    · have := extractScan_some_lt (cleanContent s) loadPatterns 0 i m0 cand hscan
      simpa using this

/-- C6 witness: `"order #445566"` wins with pattern index 2, matched text
`order #445566`, confidence `calculateConfidence 2 _ = 80`. -/
theorem extract_confidence_in_range_witness :
    (extractLoadReference (some "order #445566")).confidence =
      calculateConfidence 2 "order #445566".data ∧
    (extractLoadReference (some "order #445566")).confidence = 80 := by
  have h := extract_confidence_in_range.2.2 "order #445566" 2 "order #445566".data
      "445566".data (by decide) (by decide)
  exact ⟨h.1, by rw [h.1]; decide⟩

/-- C7: `extractLoadReference` is a total Lean function (so the embedding
never throws) and is deterministic by construction (it is a pure
function of its argument); missing / non-string input (`none`) and the
empty string both yield the no-content result with `found := false` and a
null reference; and on every input `found` equals the presence of a
reference. -/
theorem extract_total_deterministic :
    extractLoadReference none = noContentResult ∧
    extractLoadReference (some "") = noContentResult ∧
    noContentResult.found = false ∧
    noContentResult.reference = none ∧
    (∀ x : Option String,
      (extractLoadReference x).found = (extractLoadReference x).reference.isSome) := by
  refine ⟨rfl, by decide, rfl, rfl, ?_⟩
  intro x
  cases x with
  | none => rfl
  | some s =>
    by_cases hs : s = ""
    · subst hs; decide
    · simp only [extractLoadReference, if_neg hs]
      cases hscan : extractScan loadPatterns 0 (cleanContent s) with
      | none => rfl
      | some t =>
        obtain ⟨i, m0, cand⟩ := t
        rfl

/-- C1 counterexample: `String.replace` with the non-global exclusion
regexes removes only the FIRST occurrence of each exclusion pattern, so
for `"invoice #111111 invoice #222222"` the second invoice number
survives `removeExclusions` (the invoice pattern, `exclusionPatterns[3]`,
still matches the cleaned content) and extraction returns `"222222"`,
drawn from the substring `"invoice #222222"` of the input, which matches
the exclusion pattern — contradicting "removes every substring matching
the exclusion set" and "no returned reference is drawn from text that
matches an exclusion pattern". -/
theorem exclusion_removal_counterexample :
    (extractLoadReference (some "invoice #111111 invoice #222222")).reference =
      some "222222" ∧
    (searchM (exclusionPatterns.getD 3 default) none
      (cleanContent "invoice #111111 invoice #222222")).isSome = true ∧
    substrOf "222222".data "invoice #222222".data = true ∧
    substrOf "invoice #222222".data "invoice #111111 invoice #222222".data = true := by
  decide

/-- C1 amended: extraction removes, for each exclusion pattern, the first
matching substring (not every occurrence) before the candidate search; for
the input `"MC123456 order #445566"` this removes the whole MC number, no
exclusion pattern matches the cleaned content any more, the digits
`123456` are gone from the searched text (so neither `"123456"` nor any
substring of the MC number can be returned), and extraction returns
`"445566"`. -/
theorem exclusion_first_occurrence_amended :
    (extractLoadReference (some "MC123456 order #445566")).found = true ∧
    (extractLoadReference (some "MC123456 order #445566")).reference = some "445566" ∧
    substrOf "123456".data (cleanContent "MC123456 order #445566") = false ∧
    exclusionPatterns.all
      (fun pat => !(searchM pat none (cleanContent "MC123456 order #445566")).isSome) = true := by
  decide

/-- C4 counterexample: `normalizeReference` strips with JS `\w` which
keeps underscores, so `"load # AB_1234"` yields the reference `"AB_1234"`
containing `'_'` (not in `[A-Za-z0-9-]`); and `USDOT` is not in the
banned-prefix list (`['MC','DOT','PO','INV']`), so for
`"DOT1 USDOT2 load id USDOT3456"` (whose first DOT/USDOT occurrences
consume the single replacement each exclusion performs) the returned
reference `"USDOT3456"` starts with `USDOT`. -/
theorem normalize_validate_counterexample :
    (extractLoadReference (some "load # AB_1234")).reference = some "AB_1234" ∧
    "AB_1234".data.contains '_' = true ∧
    (extractLoadReference (some "DOT1 USDOT2 load id USDOT3456")).reference =
      some "USDOT3456" ∧
    "USDOT".data.isPrefixOf "USDOT3456".data = true := by
  decide

/-- C4 amended: every reference returned by extraction is the
normalization (trim, uppercase, strip to `[A-Za-z0-9_-]` — underscore
kept, since JS `\w` includes it) of some captured text, has length in
[4, 20], contains a digit, and starts with none of `MC`, `DOT`, `PO`,
`INV` (`USDOT` is not banned); `"  qf-98765 "` normalizes to
`"QF-98765"`. -/
theorem normalize_validate_amended :
    (∀ (x : Option String) (r : String),
      (extractLoadReference x).reference = some r →
      4 ≤ r.data.length ∧ r.data.length ≤ 20 ∧ r.data.any isDigitCh = true ∧
      bannedPrefixList.all (fun p => !(p.isPrefixOf r.data)) = true ∧
      (∀ c ∈ r.data, (isWordChar c || c = '-') = true) ∧
      (∃ cap, r.data = normalizeReference cap)) ∧
    normalizeReference "  qf-98765 ".data = "QF-98765".data := by
  constructor
  · intro x r href
    cases x with
    | none => simp [extractLoadReference, noContentResult] at href
    | some s =>
      by_cases hs : s = ""
      · rw [hs] at href
        simp [extractLoadReference, noContentResult] at href
      · simp only [extractLoadReference, if_neg hs] at href
        cases hscan : extractScan loadPatterns 0 (cleanContent s) with
        | none =>
          rw [hscan] at href
          exact absurd href (by simp [notFoundResult])
        | some t =>
          obtain ⟨i, m0, cand⟩ := t
          rw [hscan] at href
          simp only [Option.some.injEq] at href
          obtain ⟨hval, cap, hcap⟩ :=
            extractScan_some_valid (cleanContent s) loadPatterns 0 i m0 cand hscan
          have hrd : r.data = cand := by rw [← href]
          simp only [validateReference, Bool.and_eq_true, decide_eq_true_eq] at hval
          obtain ⟨⟨⟨h1, h2⟩, h3⟩, h4⟩ := hval
          refine ⟨hrd ▸ h1, hrd ▸ h2, hrd ▸ h3, hrd ▸ h4, ?_, ⟨cap, hrd ▸ hcap⟩⟩
          intro c hc
          rw [hrd, hcap] at hc
          exact (List.mem_filter.mp hc).2
  · decide

/-- C4 amended witness: applying the theorem at `"load # AB_1234"`,
whose extracted reference is `"AB_1234"`. -/
theorem normalize_validate_amended_witness :
    4 ≤ ("AB_1234" : String).data.length ∧
    ("AB_1234" : String).data.any isDigitCh = true ∧
    (∃ cap, ("AB_1234" : String).data = normalizeReference cap) := by
  have h := normalize_validate_amended.1 (some "load # AB_1234") "AB_1234" (by decide)
  exact ⟨h.1, h.2.2.1, h.2.2.2.2.2⟩

/-! ### Claim theorem for the scenario classifier -/

/-- C2: scenario selection is a total function of (found, outcome kind):
the branch structure of `processEmail` equals the first-match-wins rules
of the claim (`classifySpec`), always lands in one of the four scenarios,
maps found = false to no_reference, a success outcome to load_found for
EVERY record (complete or not — `isCompleteData` does not appear in the
classification), an error outcome to error, and notFound/skipped to
load_pending. -/
theorem classify_total_ordered :
    (∀ (f : Bool) (o : LookupOutcome), classifyService f o = classifySpec f o) ∧
    (∀ (f : Bool) (o : LookupOutcome),
      classifyService f o = "no_reference" ∨ classifyService f o = "error" ∨
      classifyService f o = "load_found" ∨ classifyService f o = "load_pending") ∧
    (∀ o, classifyService false o = "no_reference") ∧
    (∀ d, classifyService true (.success d) = "load_found") ∧
    (∀ d d2, classifyService true (.success d) = classifyService true (.success d2)) ∧
    (∀ m, classifyService true (.error m) = "error") ∧
    classifyService true .notFound = "load_pending" ∧
    classifyService true .skipped = "load_pending" := by
  refine ⟨?_, ?_, ?_, fun d => rfl, fun d d2 => rfl, fun m => rfl, rfl, rfl⟩
  · intro f o
    cases f <;> cases o <;> rfl
  · intro f o
    cases f <;> cases o <;> simp [classifyService]
  · intro o
    cases o <;> rfl

/-! ### Lemmas about the formatter -/

/-- A string append with a nonempty right part is nonempty. -/
theorem append_ne_empty_right (s t : String) (h : t.data ≠ []) : s ++ t ≠ "" := by
  intro hc
  have hd := congrArg String.data hc
  rw [String.data_append, show ("" : String).data = [] from rfl] at hd
  exact h (List.append_eq_nil.mp hd).2

/-- A string append with a nonempty left part is nonempty. -/
theorem append_ne_empty_left (s t : String) (h : s.data ≠ []) : s ++ t ≠ "" := by
  intro hc
  have hd := congrArg String.data hc
  rw [String.data_append, show ("" : String).data = [] from rfl] at hd
  exact h (List.append_eq_nil.mp hd).1

/-- Every output of `formatSubject` is nonempty. -/
theorem formatSubject_ne_empty (os lr : Option String) : formatSubject os lr ≠ "" := by
  unfold formatSubject
  split_ifs
  all_goals first
    | decide
    | exact append_ne_empty_right _ _ (by decide)
    | exact append_ne_empty_left _ _ (by decide)

/-- `hasChar` distributes over append. -/
theorem hasChar_append (a : Char) (l1 l2 : List Char) :
    hasChar a (l1 ++ l2) = (hasChar a l1 || hasChar a l2) := by
  induction l1 with
  | nil => rfl
  | cons c rest ih => simp [hasChar, ih, Bool.or_assoc]

/-- `escChar` never emits an angle bracket. -/
theorem escChar_no_angle (c : Char) :
    hasChar '<' (escChar c) = false ∧ hasChar '>' (escChar c) = false := by
  unfold escChar
  split_ifs with h1 h2 h3
  · exact ⟨by decide, by decide⟩
  · exact ⟨by decide, by decide⟩
  · exact ⟨by decide, by decide⟩
  · constructor
    · simp only [hasChar, Bool.or_false]
      exact beq_eq_false_iff_ne.mpr (fun hc => h2 hc.symm)
    · simp only [hasChar, Bool.or_false]
      exact beq_eq_false_iff_ne.mpr (fun hc => h3 hc.symm)

/-- The HTML-escaped body contains no raw `<` and no raw `>`. -/
theorem escapeHtml_no_angle (s : String) :
    hasChar '<' (escapeHtml s).data = false ∧
    hasChar '>' (escapeHtml s).data = false := by
  unfold escapeHtml
  show hasChar '<' (s.data.flatMap escChar) = false ∧
    hasChar '>' (s.data.flatMap escChar) = false
  induction s.data with
  | nil => exact ⟨rfl, rfl⟩
  | cons c rest ih =>
    rw [List.flatMap_cons]
    constructor
    · rw [hasChar_append, (escChar_no_angle c).1, ih.1]
      rfl
    · rw [hasChar_append, (escChar_no_angle c).2, ih.2]
      rfl

/-! ### Claim theorems for the response formatter -/

/-- C3 counterexample: the response formatter DOES throw: for the
unrecognized scenario tag `"load-found"` (and any other tag outside the
four known ones) `formatResponse` raises an unknown-scenario Error
instead of returning a fallback reply, so "the response formatter never
throws" is false — the generic fallback lives in the catch of the webhook
handler, not in the formatter. -/
theorem formatter_throws_counterexample :
    formatResponse "load-found" emptyData =
      Except.error "Unknown scenario: load-found" := by
  rfl

/-- C3 amended: `formatResponse` returns a reply for the four recognized
scenario tags (for `load_found` only when a load record is present; a
missing record makes the property access throw), raises
an unknown-scenario Error for every other tag, and the minimal
generic "we are processing your inquiry" fallback is produced one level
up, by the catch block of the webhook handler, for any thrown error. -/
theorem formatter_fallback_amended :
    (∀ (data : FormatData) (ld : LoadRecord), data.loadData = some ld →
      ∃ rep, formatResponse "load_found" data = Except.ok rep) ∧
    (∀ data : FormatData, ∃ rep, formatResponse "load_pending" data = Except.ok rep) ∧
    (∀ data : FormatData, ∃ rep, formatResponse "no_reference" data = Except.ok rep) ∧
    (∀ data : FormatData, ∃ rep, formatResponse "error" data = Except.ok rep) ∧
    (∀ data : FormatData, data.loadData = none →
      ∃ msg, formatResponse "load_found" data = Except.error msg) ∧
    (∀ (scen : String) (data : FormatData),
      scen ≠ "load_found" → scen ≠ "load_pending" → scen ≠ "no_reference" →
      scen ≠ "error" →
      formatResponse scen data = Except.error ("Unknown scenario: " ++ scen)) ∧
    (∀ e : String, handlerCatch (Except.error e) = webhookFallbackReply) ∧
    webhookFallbackReply.body =
      "Thank you for your email. We are processing your inquiry and will respond shortly." := by
  refine ⟨?_, ?_, ?_, ?_, ?_, ?_, fun e => rfl, rfl⟩
  · intro data ld h
    refine ⟨⟨formatSubject data.originalSubject data.loadReference,
      loadFoundBody data ld ++ signatureTemplate⟩, ?_⟩
    simp [formatResponse, formatLoadFoundResponse, h]
  · intro data
    exact ⟨_, rfl⟩
  · intro data
    exact ⟨_, rfl⟩
  · intro data
    exact ⟨_, rfl⟩
  · intro data h
    refine ⟨"TypeError: cannot read properties of undefined", ?_⟩
    simp [formatResponse, formatLoadFoundResponse, h]
  · intro scen data h1 h2 h3 h4
    simp only [formatResponse, if_neg h1, if_neg h2, if_neg h3, if_neg h4]

/-- A complete sample load record (used to instantiate the formatter
theorems). -/
def sampleLoad : LoadRecord :=
  ⟨⟨"Chicago, IL", some "06/01"⟩, ⟨"Dallas, TX", some "06/03"⟩,
   ⟨"General Freight", "42,000 lbs", false⟩, "Dry Van",
   ⟨some 1250, "$1,250.00"⟩, some "920 mi"⟩

/-- C3 amended witness: a found-load reply is produced for a concrete
bundle; a concrete unknown tag throws; the handler catch yields the
hardcoded fallback. -/
theorem formatter_fallback_amended_witness :
    (∃ rep, formatResponse "load_found"
      ⟨some sampleLoad, some "Load inquiry", some "302734", none⟩ = Except.ok rep) ∧
    formatResponse "bogus" emptyData = Except.error ("Unknown scenario: " ++ "bogus") ∧
    handlerCatch (Except.error "boom") = webhookFallbackReply :=
  ⟨formatter_fallback_amended.1 ⟨some sampleLoad, some "Load inquiry", some "302734", none⟩
      sampleLoad rfl,
   formatter_fallback_amended.2.2.2.2.2.1 "bogus" emptyData (by decide) (by decide)
      (by decide) (by decide),
   formatter_fallback_amended.2.2.2.2.2.2.1 "boom"⟩

/-- C8 counterexample: the claimed subject behaviour does NOT hold for
every scenario: `formatNoReferenceResponse` and `formatErrorResponse`
build their subjects inline, without the shared helper.  For the
no-reference scenario with original subject `"Re: Load 12345"` the reply
subject is `"Re: Re: Load 12345 - Reference Number Needed"` — the leading
`Re:` is NOT stripped (the prefix `"Re: "` now occurs twice) — and with
no original subject the no-reference and error scenarios interpolate the
JS `undefined` instead of synthesizing a subject. -/
theorem subject_not_stripped_counterexample :
    formatResponse "no_reference" ⟨none, some "Re: Load 12345", some "12345", none⟩ =
      Except.ok ⟨"Re: Re: Load 12345 - Reference Number Needed",
        defaultNoReferenceTemplate ++ signatureTemplate⟩ ∧
    countOcc "Re: ".data "Re: Re: Load 12345 - Reference Number Needed".data = 2 ∧
    formatResponse "no_reference" ⟨none, none, some "12345", none⟩ =
      Except.ok ⟨"Re: undefined - Reference Number Needed",
        defaultNoReferenceTemplate ++ signatureTemplate⟩ ∧
    formatResponse "error" emptyData =
      Except.ok ⟨"Re: undefined",
        replaceFirstStr (ph "ERROR_TYPE") (jsOr none "processing your request")
          defaultErrorTemplate ++ signatureTemplate⟩ := by
  exact ⟨rfl, by decide, rfl, rfl⟩

/-- C8 amended: only the load-found and load-pending scenarios format
their reply subject through the shared helper `formatSubject`; that
helper strips one leading `re:`/`fwd:`/`fw:` prefix case-insensitively
and trims (`cleanSubject`), appends `" - Load {reference}"` exactly when
the reference is truthy and not already a substring of the cleaned
subject, adds the `"Re: "` prefix, synthesizes
`"Load {reference} - Quote Details"` or `"Load Inquiry Response"` with no
(or an empty) original subject, and reformatting the already formatted
subject `"Re: Load 12345"` leaves it unchanged, still with exactly one
occurrence of `"12345"` (the idempotence); the no-reference and error
scenarios instead interpolate the original subject directly into
`"Re: {subject} - Reference Number Needed"` and `"Re: {subject}"`, with
no stripping and no synthesis. -/
theorem subject_append_once :
    (∀ r : String, formatSubject none (some r) =
      (if r = "" then "Load Inquiry Response" else "Load " ++ r ++ " - Quote Details")) ∧
    formatSubject none none = "Load Inquiry Response" ∧
    (∀ s r : String, formatSubject (some s) (some r) =
      if s = "" then
        (if r = "" then "Load Inquiry Response" else "Load " ++ r ++ " - Quote Details")
      else if (!(r == "") && !substrOf r.data (cleanSubject s).data) then
        "Re: " ++ cleanSubject s ++ " - Load " ++ r
      else "Re: " ++ cleanSubject s) ∧
    formatSubject (some "Re: Load 12345") (some "12345") = "Re: Load 12345" ∧
    countOcc "12345".data (formatSubject (some "Re: Load 12345") (some "12345")).data = 1 ∧
    (∀ data : FormatData, formatResponse "load_pending" data =
      Except.ok ⟨formatSubject data.originalSubject data.loadReference,
        replaceFirstStr (ph "LOAD_REFERENCE") (jsStr data.loadReference)
          defaultLoadPendingTemplate ++ signatureTemplate⟩) ∧
    (∀ (ld : LoadRecord) (os lr et : Option String),
      formatResponse "load_found" ⟨some ld, os, lr, et⟩ =
        Except.ok ⟨formatSubject os lr,
          loadFoundBody ⟨some ld, os, lr, et⟩ ld ++ signatureTemplate⟩) ∧
    (∀ data : FormatData, formatResponse "no_reference" data =
      Except.ok ⟨"Re: " ++ jsStr data.originalSubject ++ " - Reference Number Needed",
        defaultNoReferenceTemplate ++ signatureTemplate⟩) ∧
    (∀ data : FormatData, formatResponse "error" data =
      Except.ok ⟨"Re: " ++ jsStr data.originalSubject,
        replaceFirstStr (ph "ERROR_TYPE") (jsOr data.errorType "processing your request")
          defaultErrorTemplate ++ signatureTemplate⟩) := by
  refine ⟨?_, rfl, ?_, by decide, by decide,
    fun data => rfl, fun ld os lr et => rfl, fun data => rfl, fun data => rfl⟩
  · intro r
    by_cases hr : r = ""
    · simp [formatSubject, jsTruthy, jsStr, hr]
    · simp [formatSubject, jsTruthy, jsStr, hr]
  · intro s r
    by_cases hs : s = ""
    · by_cases hr : r = "" <;> simp [formatSubject, jsTruthy, jsStr, hs, hr]
    · by_cases hr : r = ""
      · simp [formatSubject, jsTruthy, jsStr, hs, hr, cleanSubject]
      · simp only [formatSubject, jsTruthy, jsStr, hs, hr, cleanSubject]
        simp [hr]
        split_ifs <;> simp [String.append_assoc]

/-- C9: `bodyHtml` (modelled from the spec, §4.3: the formatting code
step producing `reply_body_html` is declared in the README but missing
from the repository) is the HTML-escaped plain body with newlines turned
into `<br>` breaks, and the escaped body contains no raw `<` or `>`
whatever the user-supplied content was; each of the four scenarios
produces a reply with nonempty subject and nonempty body. -/
theorem scenarios_nonempty_escaped :
    (∀ s : String, hasChar '<' (escapeHtml s).data = false ∧
      hasChar '>' (escapeHtml s).data = false) ∧
    (∀ body : String, toBodyHtml body = newlinesToBr (escapeHtml body)) ∧
    (∀ (data : FormatData) (ld : LoadRecord), data.loadData = some ld →
      ∃ rep, formatResponse "load_found" data = Except.ok rep ∧
        rep.subject ≠ "" ∧ rep.body ≠ "") ∧
    (∀ data : FormatData,
      ∃ rep, formatResponse "load_pending" data = Except.ok rep ∧
        rep.subject ≠ "" ∧ rep.body ≠ "") ∧
    (∀ data : FormatData,
      ∃ rep, formatResponse "no_reference" data = Except.ok rep ∧
        rep.subject ≠ "" ∧ rep.body ≠ "") ∧
    (∀ data : FormatData,
      ∃ rep, formatResponse "error" data = Except.ok rep ∧
        rep.subject ≠ "" ∧ rep.body ≠ "") := by
  refine ⟨escapeHtml_no_angle, fun body => rfl, ?_, ?_, ?_, ?_⟩
  · intro data ld h
    refine ⟨⟨formatSubject data.originalSubject data.loadReference,
      loadFoundBody data ld ++ signatureTemplate⟩, ?_, ?_, ?_⟩
    · simp [formatResponse, formatLoadFoundResponse, h]
    · exact formatSubject_ne_empty _ _
    · exact append_ne_empty_right _ _ (by decide)
  · intro data
    refine ⟨_, rfl, formatSubject_ne_empty _ _, append_ne_empty_right _ _ (by decide)⟩
  · intro data
    refine ⟨_, rfl, append_ne_empty_right _ _ (by decide),
      append_ne_empty_right _ _ (by decide)⟩
  · intro data
    refine ⟨_, rfl, append_ne_empty_left _ _ (by decide),
      append_ne_empty_right _ _ (by decide)⟩

/-- C9 witness: the concrete complete record yields a reply with nonempty
subject and body for the found-load scenario. -/
theorem scenarios_nonempty_escaped_witness :
    ∃ rep, formatResponse "load_found"
      ⟨some sampleLoad, some "Load inquiry", some "302734", none⟩ = Except.ok rep ∧
      rep.subject ≠ "" ∧ rep.body ≠ "" :=
  scenarios_nonempty_escaped.2.2.1
    ⟨some sampleLoad, some "Load inquiry", some "302734", none⟩ sampleLoad rfl

/-! ### Lemmas about the batch extraction -/

/-- Invariant of the inner batch loop: entry count stays within the cap,
references stay distinct, every entry is a validated normalization and is
recorded in the seen set, and the seen set only grows. -/
theorem multiInner_inv (i maxR : Nat) (ms : List (List Char × List Char))
    (acc : List RefEntry) (seen : List (List Char))
    (hlen : acc.length ≤ maxR)
    (hnd : (acc.map RefEntry.reference).Nodup)
    (hmem : ∀ e ∈ acc, validateReference e.reference.data = true ∧
      (∃ cap, e.reference.data = normalizeReference cap) ∧ e.reference.data ∈ seen) :
    (multiInner i maxR ms acc seen).1.length ≤ maxR ∧
    ((multiInner i maxR ms acc seen).1.map RefEntry.reference).Nodup ∧
    (∀ e ∈ (multiInner i maxR ms acc seen).1,
      validateReference e.reference.data = true ∧
      (∃ cap, e.reference.data = normalizeReference cap) ∧
      e.reference.data ∈ (multiInner i maxR ms acc seen).2) := by
  induction ms generalizing acc seen with
  | nil => exact ⟨hlen, hnd, hmem⟩
  | cons m rest ih =>
    obtain ⟨m0, cap⟩ := m
    by_cases hg : (!cap.isEmpty && decide (acc.length < maxR)) = true
    · rw [multiInner, if_pos hg]
      by_cases hseen : normalizeReference cap ∈ seen
      · rw [if_pos hseen]
        exact ih acc seen hlen hnd hmem
      · rw [if_neg hseen]
        by_cases hval : validateReference (normalizeReference cap) = true
        · rw [if_pos hval]
          have hlt : acc.length < maxR := by
            simp only [Bool.and_eq_true, decide_eq_true_eq] at hg
            exact hg.2
          refine ih _ _ ?_ ?_ ?_
          · rw [List.length_append]
            simp only [List.length_cons, List.length_nil]
            omega
          · rw [List.map_append, List.nodup_append]
            refine ⟨hnd, List.nodup_singleton _, ?_⟩
            intro x hx hx2
            simp only [List.map_cons, List.map_nil, List.mem_singleton] at hx2
            subst hx2
            obtain ⟨e, he, herefl⟩ := List.mem_map.mp hx
            have := (hmem e he).2.2
            rw [herefl] at this
            exact hseen this
          · intro e he
            rcases List.mem_append.mp he with he1 | he2
            · obtain ⟨h1, h2, h3⟩ := hmem e he1
              exact ⟨h1, h2, List.mem_cons_of_mem _ h3⟩
            · simp only [List.mem_singleton] at he2
              subst he2
              exact ⟨hval, ⟨cap, rfl⟩, List.mem_cons_self _ _⟩
        · rw [if_neg hval]
          exact ih acc seen hlen hnd hmem
    · rw [multiInner, if_neg hg]
      exact ih acc seen hlen hnd hmem

/-- Invariant of the outer batch loop. -/
theorem multiScan_inv (maxR : Nat) (pats : List RPat) (i : Nat)
    (content : List Char) (acc : List RefEntry) (seen : List (List Char))
    (hlen : acc.length ≤ maxR)
    (hnd : (acc.map RefEntry.reference).Nodup)
    (hmem : ∀ e ∈ acc, validateReference e.reference.data = true ∧
      (∃ cap, e.reference.data = normalizeReference cap) ∧ e.reference.data ∈ seen) :
    (multiScan maxR pats i content acc seen).length ≤ maxR ∧
    ((multiScan maxR pats i content acc seen).map RefEntry.reference).Nodup ∧
    (∀ e ∈ multiScan maxR pats i content acc seen,
      validateReference e.reference.data = true ∧
      ∃ cap, e.reference.data = normalizeReference cap) := by
  induction pats generalizing i acc seen with
  | nil =>
    exact ⟨hlen, hnd, fun e he => ⟨(hmem e he).1, (hmem e he).2.1⟩⟩
  | cons pat rest ih =>
    have hinner := multiInner_inv i maxR (matchAllM pat content) acc seen hlen hnd hmem
    cases hmi : multiInner i maxR (matchAllM pat content) acc seen with
    | mk acc2 seen2 =>
      rw [hmi] at hinner
      rw [multiScan, hmi]
      exact ih (i + 1) acc2 seen2 hinner.1 hinner.2.1 hinner.2.2

/-! ### Claim theorem for the batch extraction -/

/-- C10: for every input and limit, `extractMultipleReferences` returns
at most `maxR` entries, with pairwise-distinct references, each the
validated normalization of some captured text (the same
`normalizeReference`/`validateReference` the single extraction applies),
and the list is sorted in non-increasing confidence order (`confGe`). -/
theorem multi_extract_props (content : String) (maxR : Nat) :
    (extractMultipleReferences content maxR).length ≤ maxR ∧
    ((extractMultipleReferences content maxR).map RefEntry.reference).Nodup ∧
    (∀ e ∈ extractMultipleReferences content maxR,
      validateReference e.reference.data = true ∧
      ∃ cap, e.reference.data = normalizeReference cap) ∧
    (extractMultipleReferences content maxR).Sorted confGe := by
  have hperm := List.perm_insertionSort confGe
    (multiScan maxR loadPatterns 0 (removeExclusions (sanitizeContent content.data)) [] [])
  have hinv := multiScan_inv maxR loadPatterns 0
    (removeExclusions (sanitizeContent content.data)) [] []
    (by simp) (by simp) (by simp)
  unfold extractMultipleReferences
  refine ⟨?_, ?_, ?_, List.sorted_insertionSort confGe _⟩
  · rw [hperm.length_eq]
    exact hinv.1
  · exact ((hperm.map RefEntry.reference).nodup_iff).mpr hinv.2.1
  · intro e he
    exact hinv.2.2 e (hperm.mem_iff.mp he)

/-- C10 witness: on a concrete email the batch extraction respects the
cap and `"111111"` is one of its validated entries. -/
theorem multi_extract_props_witness :
    (extractMultipleReferences "load #111111 and order #222222 plus 333333" 5).length ≤ 5 ∧
    (validateReference ("111111" : String).data = true ∧
      ∃ cap, ("111111" : String).data = normalizeReference cap) := by
  have h := multi_extract_props "load #111111 and order #222222 plus 333333" 5
  exact ⟨h.1, h.2.2.1 ⟨"111111", 100⟩ (by decide)⟩
